import Mathlib

/-!
Verification development for the casesnap HR onboarding backend.

Shallow embedding of the employee lifecycle state machine of
`src/controllers/employeeController.js`, the Mongoose schema of
`src/models/Employee.js`, and the authentication middleware
`middleware/auth.js`.

Modelling conventions:
* MongoDB documents become a `List Employee`; `findOne` becomes `List.find?`
  and a `save`/`findByIdAndUpdate` becomes a map that replaces the record
  with the matching `_id`.
* Mongo ObjectIds are `Nat`. `Employee.create` assigns `db.length` as the
  fresh id: documents are never hard-deleted, so the list only grows and
  `db.length` is never an existing id.
* Dates/timestamps are `Nat` milliseconds; the birth date used by the age
  computation of `registerEmployee` is a (year, month, day) triple because
  the JS code reads those components.
* JS falsy checks on request-body fields (`!email`, the `requiredFields`
  filter) are modelled with `Option` where `none` covers both a missing
  field and an empty/falsy value.
* `crypto.randomBytes` output is a parameter (`newToken`); the JWT signing
  secret is abstracted by the `TokenStr` sum type: a validly signed JWT and
  a 64-hex-char invitation secret are disjoint string shapes, so a string
  is (at most) one of the two, which the constructors capture.
* The bookkeeping timestamps `createdAt`/`updatedAt` maintained by
  `timestamps: true` are storage-layer concerns and are not modelled.
-/

deriving instance DecidableEq for Except

namespace CaseSnap


/-- invitationStatus enum of the Employee schema. -/
inductive InvStatus where
  | pending
  | completed
  | expired
deriving DecidableEq, Repr

/-- status enum of the Employee schema. -/
inductive EmpStatus where
  | pending
  | active
  | inactive
  | terminated
deriving DecidableEq, Repr

/-- employmentStatus enum of the Employee schema. -/
inductive EmploymentStatus where
  | employed
  | archived
deriving DecidableEq, Repr

/-- A calendar date (year, month, day), as read off a JS `Date` by
`getFullYear`/`getMonth`/`getDate` in `registerEmployee`. -/
structure SimpleDate where
  y : Int
  m : Int
  d : Int
deriving DecidableEq, Repr

/-- One statusHistory entry ({from, to, changedBy, changedAt, reason, notes}).
`from` is a Lean keyword, hence `fromStatus`/`toStatus`. -/
structure StatusChange where
  fromStatus : EmpStatus
  toStatus : EmpStatus
  changedBy : Nat
  changedAt : Nat
  reason : Option String
  notes : Option String
deriving DecidableEq, Repr

/-- The Employee document (models/Employee.js). `id` is the Mongo `_id`. -/
structure Employee where
  id : Nat
  adminId : Nat
  firstName : String
  lastName : String
  email : String
  phone : Option String
  address : Option String
  gender : Option String
  dateOfBirth : Option SimpleDate
  age : Option Int
  aadharCardNumber : Option String
  employeeType : Option String
  advocateLicenseNumber : Option String
  internYear : Option Int
  salary : Int
  department : Option String
  position : Option String
  startDate : Option Nat
  emergencyContactName : Option String
  emergencyContactPhone : Option String
  emergencyContactRelation : Option String
  password : Option String
  organization : Nat
  invitationStatus : InvStatus
  invitationToken : Option String
  invitationExpires : Option Nat
  status : EmpStatus
  employmentStatus : EmploymentStatus
  archivedAt : Option Nat
  archivedBy : Option Nat
  archiveReason : Option String
  isDeleted : Bool
  deletedAt : Option Nat
  statusHistory : List StatusChange
deriving DecidableEq, Repr

/-- An admin principal (models/User.js), only the fields auth needs. -/
structure User where
  id : Nat
  organization : Nat
  role : String
deriving DecidableEq, Repr

/-- The `{success:false, error}` envelope produced by `ErrorResponse`:
a message and an HTTP status code. -/
structure ErrResp where
  message : String
  statusCode : Nat
deriving DecidableEq, Repr

/-- A raw token string, classified by shape.  A validly signed JWT carries a
payload `{id, role, ...}`; an invitation secret is 64 hex chars produced by
`crypto.randomBytes(32).toString(hex)` and is never a validly signed JWT;
everything else fails `jwt.verify`. -/
inductive TokenStr where
  | secretStr (s : String)
  | jwtStr (id : Nat) (role : String)
  | badStr (s : String)
deriving DecidableEq, Repr

/-- The caller identity resolved by the `protect` middleware. -/
inductive Principal where
  | admin (u : User)
  | employee (e : Employee)
deriving DecidableEq, Repr

/-- The shape of a storage error observed by the invite catch handler:
whether `error.message.includes('aadharCardNumber')` holds, `error.code`,
and the first key of `error.keyPattern`. -/
structure DbError where
  msgIncludesAadhar : Bool
  code : Option Nat
  keyField : String
deriving DecidableEq, Repr

/-- JS `String.prototype.toLowerCase`, modelled per character (the
built-in `String.toLower` does not reduce in the kernel). -/
def lowerStr (s : String) : String := String.mk (s.data.map Char.toLower)

/-- 7 days in milliseconds (`7 * 24 * 60 * 60 * 1000`). -/
def sevenDays : Nat := 7 * 24 * 60 * 60 * 1000

/-- `findOne({_id: id, organization: orgId, ...extra})`. -/
def findByIdOrg (db : List Employee) (id orgId : Nat) (extra : Employee → Bool) :
    Option Employee :=
  db.find? (fun e => e.id == id && (e.organization == orgId && extra e))

/-- Persisting a mutated document: replace the record with the same `_id`. -/
def updateEmp (db : List Employee) (e : Employee) : List Employee :=
  db.map (fun x => if x.id == e.id then e else x)

/-- The salary validation of the invite/register handlers: a provided salary
must be a number `>= 0` (`isNaN(salary) || salary < 0` rejects). -/
def salaryNeg : Option Int → Bool
  | some s => decide (s < 0)
  | none => false

/-- Request body of `POST /api/employees/invite`.  `none` models a missing
or falsy-empty field. -/
structure InviteInput where
  firstName : Option String
  lastName : Option String
  email : Option String
  salary : Option Int
deriving DecidableEq, Repr

/-- The document built by `Employee.create` in `sendEmployeeInvitation`:
schema defaults fill status/employmentStatus/archive/soft-delete fields,
`aadharCardNumber` is explicitly unset, `invitationExpires` defaults to
`now + 7 days`. -/
def newEmployee (adminId orgId : Nat) (firstName lastName emailLower : String)
    (salary : Int) (newToken : String) (newId : Nat) (now : Nat) : Employee :=
  { id := newId
    adminId := adminId
    firstName := firstName
    lastName := lastName
    email := emailLower
    phone := none
    address := none
    gender := none
    dateOfBirth := none
    age := none
    aadharCardNumber := none
    employeeType := none
    advocateLicenseNumber := none
    internYear := none
    salary := salary
    department := none
    position := none
    startDate := none
    emergencyContactName := none
    emergencyContactPhone := none
    emergencyContactRelation := none
    password := none
    organization := orgId
    invitationStatus := InvStatus.pending
    invitationToken := some newToken
    invitationExpires := some (now + sevenDays)
    status := EmpStatus.pending
    employmentStatus := EmploymentStatus.employed
    archivedAt := none
    archivedBy := none
    archiveReason := none
    isDeleted := false
    deletedAt := none
    statusHistory := [] }

/-- The duplicate-key error raised by the global unique index on `email`
when `Employee.create` hits an email already stored (in any organization).
Its E11000 message names the `email_1` index, so it does not contain the
substring `aadharCardNumber`. -/
def emailDupErr : DbError :=
  { msgIncludesAadhar := false, code := some 11000, keyField := "email" }

/-- A duplicate-key error on the `aadharCardNumber` sparse unique index.
A MongoDB E11000 message always names the violated index
(`... index: aadharCardNumber_1 dup key: ...`), so the
`error.message.includes` test of the handler is true for it. -/
def aadharDupErr : DbError :=
  { msgIncludesAadhar := true, code := some 11000, keyField := "aadharCardNumber" }

/-- The catch block of `sendEmployeeInvitation` (employeeController.js
lines 114-161), in source order: first the
`error.message.includes('aadharCardNumber')` guard, then the
`error.code === 11000` duplicate-key handling (with the aadhar-clearing
retry), then the generic 500. -/
def handleInviteError (db : List Employee) (adminId orgId : Nat)
    (firstName lastName emailLower : String) (salary : Option Int)
    (newToken : String) (now : Nat) (err : DbError) :
    List Employee × Except ErrResp Employee :=
  if err.msgIncludesAadhar then
    (db, .error ⟨"There seems to be a data conflict. Please contact support or try with a different email address.", 400⟩)
  else if err.code = some 11000 then
    if err.keyField = "aadharCardNumber" then
      match db.find? (fun e => e.email == emailLower && e.organization == orgId) with
      | some ex =>
        let e2 := { ex with
          aadharCardNumber := none
          firstName := firstName
          lastName := lastName
          salary := (salary.getD 0)
          adminId := adminId
          invitationToken := some newToken
          invitationExpires := some (now + sevenDays)
          invitationStatus := InvStatus.pending }
        (updateEmp db e2, .ok e2)
      | none =>
        (db, .error ⟨"Unable to resolve data conflict. Please try with a different email address.", 400⟩)
    else
      (db, .error ⟨"An employee with this " ++ err.keyField ++ " already exists. Please use a different " ++ err.keyField ++ ".", 400⟩)
  else
    (db, .error ⟨"Failed to create employee invitation. Please try again.", 500⟩)

/-- `POST /api/employees/invite` (`sendEmployeeInvitation`).  `orgs` is the
set of existing Organization ids, `newToken` the freshly generated random
secret, `now` the clock.  Errors leave the store unchanged. -/
def sendEmployeeInvitation (orgs : List Nat) (db : List Employee)
    (adminId orgId : Nat) (inp : InviteInput) (newToken : String) (now : Nat) :
    List Employee × Except ErrResp Employee :=
  match inp.email with
  | none => (db, .error ⟨"Email is required", 400⟩)
  | some email =>
    match inp.firstName, inp.lastName with
    | some firstName, some lastName =>
      if salaryNeg inp.salary then
        (db, .error ⟨"Salary must be a valid positive number", 400⟩)
      else
        match db.find? (fun e => e.email == lowerStr email && e.organization == orgId) with
        | some ex =>
          if ex.invitationStatus = InvStatus.completed then
            (db, .error ⟨"An employee with this email already exists in your organization", 400⟩)
          else if ex.invitationStatus = InvStatus.pending then
            (db, .error ⟨"An invitation has already been sent to this email address", 400⟩)
          else if orgs.contains orgId = false then
            (db, .error ⟨"Organization not found", 404⟩)
          else
            -- re-invite: findByIdAndUpdate with only the invitation-relevant
            -- fields (runValidators:false); aadharCardNumber untouched
            let e2 := { ex with
              firstName := firstName
              lastName := lastName
              email := lowerStr email
              salary := (inp.salary.getD 0)
              adminId := adminId
              invitationToken := some newToken
              invitationExpires := some (now + sevenDays)
              invitationStatus := InvStatus.pending }
            (updateEmp db e2, .ok e2)
        | none =>
          if orgs.contains orgId = false then
            (db, .error ⟨"Organization not found", 404⟩)
          else if db.any (fun e => e.email == lowerStr email) then
            -- Employee.create rejected by the global unique email index
            handleInviteError db adminId orgId firstName lastName (lowerStr email)
              inp.salary newToken now emailDupErr
          else
            let e := newEmployee adminId orgId firstName lastName (lowerStr email)
              (inp.salary.getD 0) newToken db.length now
            (db ++ [e], .ok e)
    | _, _ => (db, .error ⟨"First name and last name are required", 400⟩)

/-- `GET /api/employees/register/:token` (`getEmployeeByToken`): first a
lookup by stored invitation secret with `invitationStatus: pending`; if
that fails, the JWT fallback decodes the string as a session token and
looks the employee up by the payload id (still requiring a pending
invitation).  A found-but-expired invitation is persisted as `expired`. -/
def getEmployeeByToken (db : List Employee) (tok : TokenStr) (now : Nat) :
    List Employee × Except ErrResp Employee :=
  let byInv : Option Employee :=
    match tok with
    | .secretStr s =>
      db.find? (fun e => e.invitationToken == some s && decide (e.invitationStatus = InvStatus.pending))
    | _ => none
  let found : Option Employee :=
    match byInv with
    | some e => some e
    | none =>
      match tok with
      | .jwtStr id _ =>
        db.find? (fun e => e.id == id && decide (e.invitationStatus = InvStatus.pending))
      | _ => none
  match found with
  | none => (db, .error ⟨"Invalid or expired invitation link", 400⟩)
  | some e =>
    match e.invitationExpires with
    | some exp =>
      if exp < now then
        (updateEmp db { e with invitationStatus := InvStatus.expired },
         .error ⟨"Invitation link has expired", 400⟩)
      else (db, .ok e)
    | none => (db, .ok e)

/-- `POST /api/employees/register/:token` (`completeEmployeeRegistration`):
token lookup is by stored invitation secret only (no JWT fallback here);
expiry is persisted on observation; completion stores the profile fields,
sets invitationStatus to completed and clears the secret (it does not touch
`status`). -/
def completeEmployeeRegistration (db : List Employee) (tok : TokenStr)
    (phone address gender : Option String) (dateOfBirth : Option SimpleDate)
    (now : Nat) : List Employee × Except ErrResp Employee :=
  if phone.isNone || address.isNone || gender.isNone || dateOfBirth.isNone then
    (db, .error ⟨"Phone, address, gender, and date of birth are required to complete registration", 400⟩)
  else
    let found : Option Employee :=
      match tok with
      | .secretStr s =>
        db.find? (fun e => e.invitationToken == some s && decide (e.invitationStatus = InvStatus.pending))
      | _ => none
    match found with
    | none => (db, .error ⟨"Invalid or expired invitation link", 400⟩)
    | some e =>
      let e2 := { e with
        phone := phone
        address := address
        gender := gender
        dateOfBirth := dateOfBirth
        invitationStatus := InvStatus.completed
        invitationToken := none }
      match e.invitationExpires with
      | some exp =>
        if exp < now then
          (updateEmp db { e with invitationStatus := InvStatus.expired },
           .error ⟨"Invitation link has expired", 400⟩)
        else (updateEmp db e2, .ok e2)
      | none => (updateEmp db e2, .ok e2)

/-- Request body of `POST /api/employees/register` (`registerEmployee`). -/
structure RegInput where
  firstName : Option String
  lastName : Option String
  email : Option String
  phone : Option String
  address : Option String
  gender : Option String
  dateOfBirth : Option SimpleDate
  age : Option Int
  aadharCardNumber : Option String
  employeeType : Option String
  advocateLicenseNumber : Option String
  internYear : Option Int
  salary : Option Int
  department : Option String
  position : Option String
  startDate : Option Nat
  emergencyContactName : Option String
  emergencyContactPhone : Option String
  emergencyContactRelation : Option String
  password : Option String
  confirmPassword : Option String
deriving DecidableEq, Repr

/-- `requiredFields.filter(field => !req.body[field])`, in source order
(salary, advocateLicenseNumber and internYear are not in the list). -/
def missingFields (inp : RegInput) : List String :=
  (if inp.firstName.isNone then ["firstName"] else []) ++
  (if inp.lastName.isNone then ["lastName"] else []) ++
  (if inp.email.isNone then ["email"] else []) ++
  (if inp.phone.isNone then ["phone"] else []) ++
  (if inp.address.isNone then ["address"] else []) ++
  (if inp.gender.isNone then ["gender"] else []) ++
  (if inp.dateOfBirth.isNone then ["dateOfBirth"] else []) ++
  (if inp.age.isNone then ["age"] else []) ++
  (if inp.aadharCardNumber.isNone then ["aadharCardNumber"] else []) ++
  (if inp.employeeType.isNone then ["employeeType"] else []) ++
  (if inp.department.isNone then ["department"] else []) ++
  (if inp.position.isNone then ["position"] else []) ++
  (if inp.startDate.isNone then ["startDate"] else []) ++
  (if inp.emergencyContactName.isNone then ["emergencyContactName"] else []) ++
  (if inp.emergencyContactPhone.isNone then ["emergencyContactPhone"] else []) ++
  (if inp.emergencyContactRelation.isNone then ["emergencyContactRelation"] else []) ++
  (if inp.password.isNone then ["password"] else []) ++
  (if inp.confirmPassword.isNone then ["confirmPassword"] else [])

/-- The age check of `registerEmployee`: year difference, minus one when the
birthday has not yet occurred this year. -/
def calcAge (dob today : SimpleDate) : Int :=
  let base := today.y - dob.y
  if today.m - dob.m < 0 ∨ (today.m - dob.m = 0 ∧ today.d < dob.d) then base - 1
  else base

/-- The validation prefix of `registerEmployee` (employeeController.js
lines 437-483), in source order: required fields, salary, password
confirmation, type-specific fields, age consistency.  Returns the first
failing check's error, `none` when all pass. -/
def registerValidate (inp : RegInput) (today : SimpleDate) : Option ErrResp :=
  if missingFields inp ≠ [] then
    some ⟨"Missing required fields: " ++ String.intercalate ", " (missingFields inp), 400⟩
  else if salaryNeg inp.salary then
    some ⟨"Salary must be a valid positive number", 400⟩
  else if inp.password ≠ inp.confirmPassword then
    some ⟨"Password and confirm password do not match", 400⟩
  else if inp.employeeType = some "advocate" ∧ inp.advocateLicenseNumber.isNone then
    some ⟨"Advocate license number is required for advocate employees", 400⟩
  else if inp.employeeType = some "intern" ∧ inp.internYear.isNone then
    some ⟨"Intern year is required for intern employees", 400⟩
  else
    match inp.dateOfBirth, inp.age with
    | some dob, some age =>
      if calcAge dob today ≠ age then
        some ⟨"Age does not match the calculated age from date of birth", 400⟩
      else none
    -- unreachable: a missing dateOfBirth/age is caught by the
    -- missing-fields guard above
    | _, _ =>
      some ⟨"Missing required fields: " ++ String.intercalate ", " (missingFields inp), 400⟩

/-- `POST /api/employees/register` (`registerEmployee`): the validation
prefix, then the lookup of the invited record by (email, organization) and
the completion update. -/
def registerEmployee (orgs : List Nat) (db : List Employee) (adminId orgId : Nat)
    (inp : RegInput) (today : SimpleDate) : List Employee × Except ErrResp Employee :=
  match registerValidate inp today with
  | some err => (db, .error err)
  | none =>
    match inp.email with
    -- unreachable: a missing email is caught by the missing-fields guard
    | none =>
      (db, .error ⟨"Missing required fields: " ++ String.intercalate ", " (missingFields inp), 400⟩)
    | some email =>
      match db.find? (fun e => e.email == lowerStr email && e.organization == orgId) with
      | none =>
        (db, .error ⟨"No invitation found for this email address. Please contact your admin to send an invitation.", 400⟩)
      | some ex =>
        if ex.invitationStatus = InvStatus.completed then
          if ex.status = EmpStatus.active then
            (db, .error ⟨"You have already completed your registration and your account is active. You cannot register again.", 400⟩)
          else if ex.status = EmpStatus.pending then
            (db, .error ⟨"You have already completed your registration. Your account is pending admin approval. Please contact your admin for status updates.", 400⟩)
          else
            (db, .error ⟨"You have already completed your registration. Please contact your admin for account status.", 400⟩)
        else if ex.invitationStatus = InvStatus.expired then
          (db, .error ⟨"Your invitation has expired. Please contact your admin to send a new invitation.", 400⟩)
        else if orgs.contains orgId = false then
          (db, .error ⟨"Organization not found", 404⟩)
        else
          let e2 := { ex with
            phone := inp.phone
            address := inp.address
            gender := inp.gender
            dateOfBirth := inp.dateOfBirth
            age := inp.age
            aadharCardNumber := inp.aadharCardNumber
            employeeType := inp.employeeType
            department := inp.department
            position := inp.position
            startDate := inp.startDate
            emergencyContactName := inp.emergencyContactName
            emergencyContactPhone := inp.emergencyContactPhone
            emergencyContactRelation := inp.emergencyContactRelation
            password := inp.password
            invitationStatus := InvStatus.completed
            status := EmpStatus.pending
            invitationToken := none
            salary := (match inp.salary with | some s => s | none => ex.salary)
            advocateLicenseNumber :=
              (if inp.employeeType = some "advocate" then inp.advocateLicenseNumber
               else ex.advocateLicenseNumber)
            internYear :=
              (if inp.employeeType = some "intern" then inp.internYear
               else ex.internYear) }
          (updateEmp db e2, .ok e2)

/-- `GET /api/employees/:id` (`getEmployee`): tenant-scoped lookup. -/
def getEmployee (db : List Employee) (id orgId : Nat) : Except ErrResp Employee :=
  match findByIdOrg db id orgId (fun _ => true) with
  | none => .error ⟨"Employee not found", 404⟩
  | some e => .ok e

/-- `POST /api/employees/:id/status` (`updateEmployeeStatus`).  `none` for
the status models a missing body status or one outside the four-value enum
(rejected before the lookup).  Appends one statusHistory entry. -/
def updateEmployeeStatus (db : List Employee) (id orgId adminId : Nat)
    (status : Option EmpStatus) (reason notes : Option String) (now : Nat) :
    List Employee × Except ErrResp Employee :=
  match status with
  | none => (db, .error ⟨"Invalid status. Must be one of: pending, active, inactive, terminated", 400⟩)
  | some st =>
    match findByIdOrg db id orgId (fun _ => true) with
    | none => (db, .error ⟨"Employee not found", 404⟩)
    | some e =>
      let e2 := { e with
        status := st
        statusHistory := e.statusHistory ++
          [{ fromStatus := e.status, toStatus := st, changedBy := adminId,
             changedAt := now, reason := reason, notes := notes }] }
      (updateEmp db e2, .ok e2)

/-- The body of an admin edit (`PUT /api/employees/admin/:id`): each `some`
field is written by `findByIdAndUpdate`, the rest stay. -/
structure UpdateData where
  firstName : Option String
  lastName : Option String
  email : Option String
  phone : Option String
  address : Option String
  gender : Option String
  dateOfBirth : Option SimpleDate
  age : Option Int
  aadharCardNumber : Option String
  employeeType : Option String
  advocateLicenseNumber : Option String
  internYear : Option Int
  salary : Option Int
  department : Option String
  position : Option String
  startDate : Option Nat
  emergencyContactName : Option String
  emergencyContactPhone : Option String
  emergencyContactRelation : Option String
deriving DecidableEq, Repr

/-- Field-wise merge performed by `findByIdAndUpdate(id, updateData)`. -/
def applyUpdate (ud : UpdateData) (e : Employee) : Employee :=
  { e with
    firstName := ud.firstName.getD e.firstName
    lastName := ud.lastName.getD e.lastName
    email := ud.email.getD e.email
    phone := (match ud.phone with | some v => some v | none => e.phone)
    address := (match ud.address with | some v => some v | none => e.address)
    gender := (match ud.gender with | some v => some v | none => e.gender)
    dateOfBirth := (match ud.dateOfBirth with | some v => some v | none => e.dateOfBirth)
    age := (match ud.age with | some v => some v | none => e.age)
    aadharCardNumber := (match ud.aadharCardNumber with | some v => some v | none => e.aadharCardNumber)
    employeeType := (match ud.employeeType with | some v => some v | none => e.employeeType)
    advocateLicenseNumber := (match ud.advocateLicenseNumber with | some v => some v | none => e.advocateLicenseNumber)
    internYear := (match ud.internYear with | some v => some v | none => e.internYear)
    salary := ud.salary.getD e.salary
    department := (match ud.department with | some v => some v | none => e.department)
    position := (match ud.position with | some v => some v | none => e.position)
    startDate := (match ud.startDate with | some v => some v | none => e.startDate)
    emergencyContactName := (match ud.emergencyContactName with | some v => some v | none => e.emergencyContactName)
    emergencyContactPhone := (match ud.emergencyContactPhone with | some v => some v | none => e.emergencyContactPhone)
    emergencyContactRelation := (match ud.emergencyContactRelation with | some v => some v | none => e.emergencyContactRelation) }

/-- `PUT /api/employees/admin/:id` (`updateEmployeeByAdmin`). -/
def updateEmployeeByAdmin (db : List Employee) (id orgId : Nat) (ud : UpdateData) :
    List Employee × Except ErrResp Employee :=
  match findByIdOrg db id orgId (fun e => !e.isDeleted) with
  | none => (db, .error ⟨"Employee not found", 404⟩)
  | some e =>
    if ud.employeeType = some "advocate" ∧ ud.advocateLicenseNumber.isNone then
      (db, .error ⟨"Advocate license number is required for advocate employees", 400⟩)
    else if ud.employeeType = some "intern" ∧ ud.internYear.isNone then
      (db, .error ⟨"Intern year is required for intern employees", 400⟩)
    else
      let e2 := applyUpdate ud e
      (updateEmp db e2, .ok e2)

/-- `DELETE /api/employees/admin/:id` (`softDeleteEmployeeByAdmin`): sets
isDeleted/deletedAt and forces status to terminated; no statusHistory
entry. -/
def softDeleteEmployeeByAdmin (db : List Employee) (id orgId : Nat) (now : Nat) :
    List Employee × Except ErrResp Employee :=
  match findByIdOrg db id orgId (fun e => !e.isDeleted) with
  | none => (db, .error ⟨"Employee not found", 404⟩)
  | some e =>
    let e2 := { e with
      isDeleted := true
      deletedAt := some now
      status := EmpStatus.terminated }
    (updateEmp db e2, .ok e2)

/-- `PUT /api/employees/admin/:id/restore` (`restoreEmployeeByAdmin`):
clears isDeleted/deletedAt and resets status to pending; no statusHistory
entry. -/
def restoreEmployeeByAdmin (db : List Employee) (id orgId : Nat) :
    List Employee × Except ErrResp Employee :=
  match findByIdOrg db id orgId (fun e => e.isDeleted) with
  | none => (db, .error ⟨"Deleted employee not found", 404⟩)
  | some e =>
    let e2 := { e with
      isDeleted := false
      deletedAt := none
      status := EmpStatus.pending }
    (updateEmp db e2, .ok e2)

/-- `POST /api/employees/admin/:id/archive` (`archiveEmployeeByAdmin`):
rejects already-archived records, then sets the archival sub-state, forces
status to terminated and appends a statusHistory entry. -/
def archiveEmployeeByAdmin (db : List Employee) (id orgId adminId : Nat)
    (reason notes : Option String) (now : Nat) :
    List Employee × Except ErrResp Employee :=
  match findByIdOrg db id orgId (fun e => !e.isDeleted) with
  | none => (db, .error ⟨"Employee not found", 404⟩)
  | some e =>
    if e.employmentStatus = EmploymentStatus.archived then
      (db, .error ⟨"Employee is already archived", 400⟩)
    else
      let e2 := { e with
        employmentStatus := EmploymentStatus.archived
        archivedAt := some now
        archivedBy := some adminId
        archiveReason := some (reason.getD "No reason provided")
        -- `if (employee.status !== terminated) employee.status = terminated`
        status := EmpStatus.terminated
        statusHistory := e.statusHistory ++
          [{ fromStatus := e.status, toStatus := EmpStatus.terminated,
             changedBy := adminId, changedAt := now,
             reason := some "Archived by admin",
             notes := some ((notes.orElse (fun _ => reason)).getD "Employee archived - stopped working") }] }
      (updateEmp db e2, .ok e2)

/-- `PUT /api/employees/admin/:id/unarchive` (`unarchiveEmployeeByAdmin`):
the lookup itself requires `employmentStatus: archived` and
`isDeleted: false`; clears the archival sub-state, resets status to
pending and appends a statusHistory entry `{from: terminated, to: pending}`. -/
def unarchiveEmployeeByAdmin (db : List Employee) (id orgId adminId : Nat)
    (notes : Option String) (now : Nat) :
    List Employee × Except ErrResp Employee :=
  match findByIdOrg db id orgId
      (fun e => decide (e.employmentStatus = EmploymentStatus.archived) && !e.isDeleted) with
  | none => (db, .error ⟨"Archived employee not found", 404⟩)
  | some e =>
    let e2 := { e with
      employmentStatus := EmploymentStatus.employed
      status := EmpStatus.pending
      archivedAt := none
      archivedBy := none
      archiveReason := none
      statusHistory := e.statusHistory ++
        [{ fromStatus := EmpStatus.terminated, toStatus := EmpStatus.pending,
           changedBy := adminId, changedAt := now,
           reason := some "Unarchived by admin",
           notes := some (notes.getD "Employee unarchived - restored to active employment") }] }
    (updateEmp db e2, .ok e2)

/-- The `protect` middleware (middleware/auth.js): missing token is 401;
`jwt.verify` succeeds only on a validly signed JWT (an invitation secret or
any other string fails as 401); the payload role selects the identity
space, then the principal is loaded by payload id. -/
def protect (users : List User) (db : List Employee) (tok : Option TokenStr) :
    Except ErrResp Principal :=
  match tok with
  | none => .error ⟨"Not authorized to access this route", 401⟩
  | some t =>
    match t with
    | .jwtStr id role =>
      if role = "employee" then
        match db.find? (fun e => e.id == id) with
        | some e => .ok (Principal.employee e)
        | none => .error ⟨"No user found with this token", 401⟩
      else
        match users.find? (fun u => u.id == id) with
        | some u => .ok (Principal.admin u)
        | none => .error ⟨"No user found with this token", 401⟩
    | _ => .error ⟨"Not authorized to access this route", 401⟩

/-! ### The reachable-state invariant -/

/-- The archival-fields coupling: archived records carry all three archive
fields, employed records carry none. -/
def ArchInv (e : Employee) : Prop :=
  (e.employmentStatus = EmploymentStatus.archived →
    e.archivedAt.isSome ∧ e.archivedBy.isSome ∧ e.archiveReason.isSome) ∧
  (e.employmentStatus = EmploymentStatus.employed →
    e.archivedAt = none ∧ e.archivedBy = none ∧ e.archiveReason = none)

instance (e : Employee) : Decidable (ArchInv e) := by
  unfold ArchInv
  infer_instance

/-- Store well-formedness maintained by every lifecycle operation:
the archival coupling per record, ids below the store size (fresh-id
discipline of `Employee.create`), id uniqueness (`_id` is a key), and
global email uniqueness (the unique index on `email`). -/
def Invar (db : List Employee) : Prop :=
  (∀ e ∈ db, ArchInv e) ∧
  (∀ e ∈ db, e.id < db.length) ∧
  (db.map (fun e => e.id)).Nodup ∧
  (db.map (fun e => e.email)).Nodup

/-! ### Lifecycle operations as a step relation -/

/-- One lifecycle operation with its request data. -/
inductive LifeOp where
  | invite (adminId orgId : Nat) (inp : InviteInput) (newToken : String) (now : Nat)
  | register (adminId orgId : Nat) (inp : RegInput) (today : SimpleDate)
  | completeReg (tok : TokenStr) (phone address gender : Option String)
      (dob : Option SimpleDate) (now : Nat)
  | updateStatus (id orgId adminId : Nat) (st : Option EmpStatus)
      (reason notes : Option String) (now : Nat)
  | archive (id orgId adminId : Nat) (reason notes : Option String) (now : Nat)
  | unarchive (id orgId adminId : Nat) (notes : Option String) (now : Nat)
  | softDelete (id orgId : Nat) (now : Nat)
  | restore (id orgId : Nat)

/-- The store after running one lifecycle operation (errors leave it as
they found it; the lazy expiry write of a failed completion is kept). -/
def applyOp (orgs : List Nat) (db : List Employee) : LifeOp → List Employee
  | .invite a o inp tk now => (sendEmployeeInvitation orgs db a o inp tk now).1
  | .register a o inp today => (registerEmployee orgs db a o inp today).1
  | .completeReg tok p ad g dob now =>
    (completeEmployeeRegistration db tok p ad g dob now).1
  | .updateStatus id o a st r n now => (updateEmployeeStatus db id o a st r n now).1
  | .archive id o a r n now => (archiveEmployeeByAdmin db id o a r n now).1
  | .unarchive id o a n now => (unarchiveEmployeeByAdmin db id o a n now).1
  | .softDelete id o now => (softDeleteEmployeeByAdmin db id o now).1
  | .restore id o => (restoreEmployeeByAdmin db id o).1

/-- The stores reachable from an empty store by lifecycle operations. -/
inductive Reachable (orgs : List Nat) : List Employee → Prop where
  | init : Reachable orgs []
  | step (db : List Employee) (op : LifeOp) :
      Reachable orgs db → Reachable orgs (applyOp orgs db op)

def c1op1 : LifeOp :=
  LifeOp.invite 1 1 ⟨some "Jane", some "Doe", some "jane@x.co", none⟩ "tok1" 0

def c1op2 : LifeOp := LifeOp.archive 0 1 1 none none 5

def c1op3 : LifeOp := LifeOp.softDelete 0 1 6

def c1op4 : LifeOp := LifeOp.restore 0 1

def c1db : List Employee :=
  applyOp [1] (applyOp [1] (applyOp [1] (applyOp [1] [] c1op1) c1op2) c1op3) c1op4

def c1wemp : Employee :=
  newEmployee 1 1 "Jane" "Doe" (lowerStr "jane@x.co") 0 "tok1" 0 0

def c3emp : Employee := newEmployee 1 2 "Ann" "Lee" "ann@b.co" 0 "tok3" 0 0

def c3ud : UpdateData :=
  ⟨none, none, none, none, none, none, none, none, none, none,
   none, none, none, none, none, none, none, none, none⟩

def c4inp : RegInput :=
  { firstName := some "Jane", lastName := some "Doe", email := some "jane@x.co"
    phone := some "9876543210", address := some "1 Main St", gender := some "Female"
    dateOfBirth := some ⟨2000, 0, 15⟩, age := some 26
    aadharCardNumber := some "123456789012", employeeType := some "staff"
    advocateLicenseNumber := none, internYear := none, salary := some 100
    department := some "Legal", position := some "Clerk", startDate := some 0
    emergencyContactName := some "Bob", emergencyContactPhone := some "9876543211"
    emergencyContactRelation := some "Spouse"
    password := some "secret123", confirmPassword := some "secret124" }

def c5emp : Employee := newEmployee 1 1 "Jane" "Doe" "jane@x.co" 0 "tok5" 0 0

def c10del : Employee :=
  { newEmployee 1 1 "Del" "Eted" "del@b.co" 0 "tokd" 0 0 with
    isDeleted := true, deletedAt := some 3 }

def c6emp : Employee :=
  { newEmployee 1 1 "Jane" "Doe" "jane@x.co" 0 "oldtok" 0 0 with
    invitationStatus := InvStatus.expired }

def c2emp : Employee := newEmployee 1 1 "Jane" "Doe" "jane@x.co" 0 "secret1" 7 0

/-- The whitelisted sort fields of `getEmployeesForAdmin`. -/
def validSortFields : List String :=
  ["createdAt", "updatedAt", "firstName", "lastName", "email", "salary", "status"]

/-- needle-is-a-leading-segment test on character lists. -/
def leadsWith : List Char → List Char → Bool
  | [], _ => true
  | _ :: _, [] => false
  | c :: cs, d :: ds => c == d && leadsWith cs ds

/-- substring test on character lists. -/
def hasSub (needle : List Char) : List Char → Bool
  | [] => leadsWith needle []
  | d :: ds => leadsWith needle (d :: ds) || hasSub needle ds

/-- The `$regex: search, $options: i` match of the admin listing over
firstName, lastName, email, department, position (a missing optional
field matches nothing). -/
def searchMatches (s : String) (e : Employee) : Bool :=
  hasSub (lowerStr s).data (lowerStr e.firstName).data ||
  hasSub (lowerStr s).data (lowerStr e.lastName).data ||
  hasSub (lowerStr s).data (lowerStr e.email).data ||
  (match e.department with
   | some d => hasSub (lowerStr s).data (lowerStr d).data
   | none => false) ||
  (match e.position with
   | some p => hasSub (lowerStr s).data (lowerStr p).data
   | none => false)

/-- The query flags of `GET /api/employees/admin/all`:
includeDeleted/includeArchived are true iff the query-string value is the
string true; `status` is a provided-and-valid status filter (an invalid
string is rejected before the query, not modelled as a separate error
here since no claim touches it). -/
structure ListQuery where
  includeDeleted : Bool
  includeArchived : Bool
  status : Option EmpStatus
  search : Option String
deriving DecidableEq, Repr

/-- The Mongo query predicate built by `getEmployeesForAdmin`:
organization scope, `isDeleted: false` unless includeDeleted,
`employmentStatus: employed` unless includeArchived, optional status
equality, optional search. -/
def listMatches (orgId : Nat) (q : ListQuery) (e : Employee) : Bool :=
  e.organization == orgId &&
  (q.includeDeleted || !e.isDeleted) &&
  (q.includeArchived || decide (e.employmentStatus = EmploymentStatus.employed)) &&
  (match q.status with
   | none => true
   | some st => decide (e.status = st)) &&
  (match q.search with
   | none => true
   | some s => searchMatches s e)

/-- `GET /api/employees/admin/all` (`getEmployeesForAdmin`): pagination
and sort validation, then count plus one page of the filtered collection.
`sortFn` stands for `.sort(sortObj)`, whose default keys
(createdAt/updatedAt) are storage timestamps outside the model; the
visibility properties proved about the result hold for any permutation. -/
def getEmployeesForAdmin (db : List Employee) (orgId : Nat) (q : ListQuery)
    (page limit : Int) (sortBy sortOrder : String)
    (sortFn : List Employee → List Employee) :
    Except ErrResp (List Employee × Nat) :=
  if page < 1 then .error ⟨"Page number must be greater than 0", 400⟩
  else if limit < 1 ∨ 100 < limit then
    .error ⟨"Limit must be between 1 and 100", 400⟩
  else if validSortFields.contains sortBy = false then
    .error ⟨"Invalid sort field. Must be one of: createdAt, updatedAt, firstName, lastName, email, salary, status", 400⟩
  else if sortOrder ≠ "asc" ∧ sortOrder ≠ "desc" then
    .error ⟨"Invalid sort order. Must be one of: asc, desc", 400⟩
  else
    let matched := db.filter (listMatches orgId q)
    .ok ((((sortFn matched).drop ((page - 1) * limit).toNat).take limit.toNat),
      matched.length)

def c8deleted : Employee :=
  { newEmployee 1 1 "Del" "Eted" "del@b.co" 0 "tok8a" 0 0 with
    isDeleted := true, deletedAt := some 3, status := EmpStatus.terminated }

def c8archived : Employee :=
  { newEmployee 1 1 "Arc" "Hived" "arc@b.co" 0 "tok8b" 1 0 with
    employmentStatus := EmploymentStatus.archived, archivedAt := some 4,
    archivedBy := some 1, archiveReason := some "left",
    status := EmpStatus.terminated }

def c8active : Employee :=
  { newEmployee 1 1 "Act" "Ive" "act@b.co" 0 "tok8c" 2 0 with
    status := EmpStatus.active, invitationStatus := InvStatus.completed }

def c9op : LifeOp :=
  LifeOp.invite 1 1 ⟨some "Ann", some "Bee", some "ann@a.co", none⟩ "t9" 0

def c9db : List Employee := applyOp [1, 2] [] c9op

def c9ea : Employee := newEmployee 1 1 "Ann" "Bee" (lowerStr "ann@a.co") 0 "t9" 0 0

/-! ### Store helper lemmas -/

theorem updateEmp_mem {db : List Employee} {e x : Employee}
    (hx : x ∈ updateEmp db e) : x = e ∨ x ∈ db := by
  rcases List.mem_map.mp hx with ⟨a, ha, hax⟩
  by_cases hid : a.id = e.id
  · left
    rw [← hax]
    simp [hid]
  · right
    rw [← hax]
    simpa [hid] using ha

theorem updateEmp_length (db : List Employee) (e : Employee) :
    (updateEmp db e).length = db.length := by
  simp [updateEmp]

theorem updateEmp_map_id (db : List Employee) (e : Employee) :
    (updateEmp db e).map (fun x => x.id) = db.map (fun x => x.id) := by
  simp only [updateEmp, List.map_map]
  apply List.map_congr_left
  intro a _
  by_cases hid : a.id = e.id
  · simp [Function.comp_apply, hid]
  · simp [Function.comp_apply, hid]

theorem updateEmp_map_email {db : List Employee} {e : Employee}
    (h : ∀ x ∈ db, x.id = e.id → x.email = e.email) :
    (updateEmp db e).map (fun x => x.email) = db.map (fun x => x.email) := by
  simp only [updateEmp, List.map_map]
  apply List.map_congr_left
  intro a ha
  by_cases hid : a.id = e.id
  · simp only [Function.comp_apply, hid, beq_self_eq_true, if_true]
    exact (h a ha hid).symm
  · simp [Function.comp_apply, hid]

theorem findByIdOrg_mem {db : List Employee} {id orgId : Nat}
    {extra : Employee → Bool} {e : Employee}
    (h : findByIdOrg db id orgId extra = some e) : e ∈ db :=
  List.mem_of_find?_eq_some h

theorem findByIdOrg_spec {db : List Employee} {id orgId : Nat}
    {extra : Employee → Bool} {e : Employee}
    (h : findByIdOrg db id orgId extra = some e) :
    e.id = id ∧ e.organization = orgId ∧ extra e = true := by
  have hp := List.find?_some h
  simpa [Bool.and_eq_true] using hp

theorem findByIdOrg_none {db : List Employee} {id orgId : Nat}
    (h : ∀ e ∈ db, e.id = id → e.organization ≠ orgId)
    (extra : Employee → Bool) :
    findByIdOrg db id orgId extra = none := by
  apply List.find?_eq_none.mpr
  intro x hx hcontra
  simp only [Bool.and_eq_true, beq_iff_eq] at hcontra
  exact h x hx hcontra.1 hcontra.2.1

theorem find_updateEmp {db : List Employee} {e : Employee} {p : Employee → Bool}
    (hp : p e = true) (hpid : ∀ x, p x = true → x.id = e.id)
    (hex : ∃ x ∈ db, x.id = e.id) :
    (updateEmp db e).find? p = some e := by
  induction db with
  | nil =>
    rcases hex with ⟨x, hx, _⟩
    cases hx
  | cons a tl ih =>
    simp only [updateEmp, List.map_cons]
    by_cases hid : a.id = e.id
    · simp only [hid, beq_self_eq_true, if_true]
      exact List.find?_cons_of_pos _ hp
    · have hneg : ¬((a.id == e.id) = true) := by simpa using hid
      rw [if_neg hneg]
      have hpa : p a = false := by
        cases hpa : p a
        · rfl
        · exact absurd (hpid a hpa) hid
      rw [List.find?_cons_of_neg _ (by simp [hpa])]
      have hex2 : ∃ x ∈ tl, x.id = e.id := by
        rcases hex with ⟨x, hx, hxid⟩
        rcases List.mem_cons.mp hx with rfl | hxtl
        · exact absurd hxid hid
        · exact ⟨x, hxtl, hxid⟩
      simpa [updateEmp] using ih hex2

theorem archInv_of_eq {e e2 : Employee} (h : ArchInv e)
    (h1 : e2.employmentStatus = e.employmentStatus)
    (h2 : e2.archivedAt = e.archivedAt) (h3 : e2.archivedBy = e.archivedBy)
    (h4 : e2.archiveReason = e.archiveReason) : ArchInv e2 := by
  unfold ArchInv at h ⊢
  rw [h1, h2, h3, h4]
  exact h

theorem invar_updateEmp {db : List Employee} {e e2 : Employee}
    (h : Invar db) (he : e ∈ db) (hid : e2.id = e.id) (hem : e2.email = e.email)
    (hA : ArchInv e2) : Invar (updateEmp db e2) := by
  obtain ⟨hArch, hLt, hIds, hEmails⟩ := h
  have hpoint : ∀ x ∈ db, x.id = e2.id → x.email = e2.email := by
    intro x hx hxid
    have hxe : x = e := List.inj_on_of_nodup_map hIds hx he (by rw [hxid, hid])
    rw [hxe, hem]
  refine ⟨?_, ?_, ?_, ?_⟩
  · intro x hx
    rcases updateEmp_mem hx with rfl | hxdb
    · exact hA
    · exact hArch x hxdb
  · intro x hx
    rw [updateEmp_length]
    rcases updateEmp_mem hx with rfl | hxdb
    · rw [hid]
      exact hLt e he
    · exact hLt x hxdb
  · rw [updateEmp_map_id]
    exact hIds
  · rw [updateEmp_map_email hpoint]
    exact hEmails

theorem invar_append {db : List Employee} {e : Employee}
    (h : Invar db) (hid : e.id = db.length) (hA : ArchInv e)
    (hem : ∀ x ∈ db, x.email ≠ e.email) : Invar (db ++ [e]) := by
  obtain ⟨hArch, hLt, hIds, hEmails⟩ := h
  refine ⟨?_, ?_, ?_, ?_⟩
  · intro x hx
    rcases List.mem_append.mp hx with hxdb | hxe
    · exact hArch x hxdb
    · rw [List.mem_singleton.mp hxe]
      exact hA
  · intro x hx
    rw [List.length_append, List.length_singleton]
    rcases List.mem_append.mp hx with hxdb | hxe
    · exact Nat.lt_succ_of_lt (hLt x hxdb)
    · rw [List.mem_singleton.mp hxe, hid]
      exact Nat.lt_succ_self _
  · rw [List.map_append, List.nodup_append]
    refine ⟨hIds, by simp, ?_⟩
    intro v hv hv2
    simp only [List.map_cons, List.map_nil, List.mem_singleton] at hv2
    rcases List.mem_map.mp hv with ⟨x, hx, hxv⟩
    have hxlen : x.id < db.length := hLt x hx
    have hxid : x.id = db.length := by rw [hxv, hv2, hid]
    omega
  · rw [List.map_append, List.nodup_append]
    refine ⟨hEmails, by simp, ?_⟩
    intro v hv hv2
    simp only [List.map_cons, List.map_nil, List.mem_singleton] at hv2
    rcases List.mem_map.mp hv with ⟨x, hx, hxv⟩
    exact hem x hx (hxv.trans hv2)

theorem invar_softDelete (db : List Employee) (id orgId now : Nat)
    (h : Invar db) : Invar ((softDeleteEmployeeByAdmin db id orgId now).1) := by
  unfold softDeleteEmployeeByAdmin
  cases hf : findByIdOrg db id orgId (fun e => !e.isDeleted) with
  | none => simpa using h
  | some e =>
    simp only [hf]
    exact invar_updateEmp h (findByIdOrg_mem hf) rfl rfl
      (archInv_of_eq (h.1 e (findByIdOrg_mem hf)) rfl rfl rfl rfl)

theorem invar_restore (db : List Employee) (id orgId : Nat)
    (h : Invar db) : Invar ((restoreEmployeeByAdmin db id orgId).1) := by
  unfold restoreEmployeeByAdmin
  cases hf : findByIdOrg db id orgId (fun e => e.isDeleted) with
  | none => simpa using h
  | some e =>
    simp only [hf]
    exact invar_updateEmp h (findByIdOrg_mem hf) rfl rfl
      (archInv_of_eq (h.1 e (findByIdOrg_mem hf)) rfl rfl rfl rfl)

theorem invar_updateStatus (db : List Employee) (id orgId adminId : Nat)
    (st : Option EmpStatus) (reason notes : Option String) (now : Nat)
    (h : Invar db) :
    Invar ((updateEmployeeStatus db id orgId adminId st reason notes now).1) := by
  unfold updateEmployeeStatus
  cases st with
  | none => simpa using h
  | some s =>
    cases hf : findByIdOrg db id orgId (fun _ => true) with
    | none => simpa using h
    | some e =>
      simp only [hf]
      exact invar_updateEmp h (findByIdOrg_mem hf) rfl rfl
        (archInv_of_eq (h.1 e (findByIdOrg_mem hf)) rfl rfl rfl rfl)

theorem invar_archive (db : List Employee) (id orgId adminId : Nat)
    (reason notes : Option String) (now : Nat) (h : Invar db) :
    Invar ((archiveEmployeeByAdmin db id orgId adminId reason notes now).1) := by
  unfold archiveEmployeeByAdmin
  cases hf : findByIdOrg db id orgId (fun e => !e.isDeleted) with
  | none => simpa using h
  | some e =>
    simp only [hf]
    by_cases harch : e.employmentStatus = EmploymentStatus.archived
    · simp only [if_pos harch]
      simpa using h
    · simp only [if_neg harch]
      refine invar_updateEmp h (findByIdOrg_mem hf) rfl rfl ?_
      unfold ArchInv
      refine ⟨fun _ => ⟨rfl, rfl, rfl⟩, fun hemp => ?_⟩
      exact absurd hemp (by simp)

theorem invar_unarchive (db : List Employee) (id orgId adminId : Nat)
    (notes : Option String) (now : Nat) (h : Invar db) :
    Invar ((unarchiveEmployeeByAdmin db id orgId adminId notes now).1) := by
  unfold unarchiveEmployeeByAdmin
  cases hf : findByIdOrg db id orgId
      (fun e => decide (e.employmentStatus = EmploymentStatus.archived) && !e.isDeleted) with
  | none => simpa using h
  | some e =>
    simp only [hf]
    refine invar_updateEmp h (findByIdOrg_mem hf) rfl rfl ?_
    unfold ArchInv
    exact ⟨fun hemp => absurd hemp (by simp), fun _ => ⟨rfl, rfl, rfl⟩⟩

theorem invar_completeReg (db : List Employee) (tok : TokenStr)
    (phone address gender : Option String) (dob : Option SimpleDate) (now : Nat)
    (h : Invar db) :
    Invar ((completeEmployeeRegistration db tok phone address gender dob now).1) := by
  unfold completeEmployeeRegistration
  split
  · simpa using h
  · cases hfound :
      (match tok with
       | TokenStr.secretStr s =>
         db.find? (fun e => e.invitationToken == some s && decide (e.invitationStatus = InvStatus.pending))
       | _ => none : Option Employee) with
    | none => simpa using h
    | some e =>
      have hmem : e ∈ db := by
        cases tok with
        | secretStr s => exact List.mem_of_find?_eq_some hfound
        | jwtStr id role => cases hfound
        | badStr s => cases hfound
      simp only [hfound]
      cases hexp : e.invitationExpires with
      | none =>
        exact invar_updateEmp h hmem rfl rfl
          (archInv_of_eq (h.1 e hmem) rfl rfl rfl rfl)
      | some exp =>
        by_cases hlt : exp < now
        · simp only [if_pos hlt]
          exact invar_updateEmp h hmem rfl rfl
            (archInv_of_eq (h.1 e hmem) rfl rfl rfl rfl)
        · simp only [if_neg hlt]
          exact invar_updateEmp h hmem rfl rfl
            (archInv_of_eq (h.1 e hmem) rfl rfl rfl rfl)

theorem invar_register (orgs : List Nat) (db : List Employee) (a o : Nat)
    (inp : RegInput) (today : SimpleDate) (h : Invar db) :
    Invar ((registerEmployee orgs db a o inp today).1) := by
  unfold registerEmployee
  split
  · exact h
  split
  · exact h
  split
  · exact h
  split
  · split
    · exact h
    split
    · exact h
    · exact h
  split
  · exact h
  split
  · exact h
  rename_i ex hf hc1 hc2 hc3
  refine invar_updateEmp h (List.mem_of_find?_eq_some hf) rfl rfl ?_
  exact archInv_of_eq (h.1 ex (List.mem_of_find?_eq_some hf)) rfl rfl rfl rfl

theorem invar_invite (orgs : List Nat) (db : List Employee) (a o : Nat)
    (inp : InviteInput) (tk : String) (now : Nat) (h : Invar db) :
    Invar ((sendEmployeeInvitation orgs db a o inp tk now).1) := by
  unfold sendEmployeeInvitation
  repeat' split
  all_goals try exact h
  · rename_i ex hf hc1 hc2 hc3
    have hmem := List.mem_of_find?_eq_some hf
    have hpred := List.find?_some hf
    simp only [Bool.and_eq_true, beq_iff_eq] at hpred
    refine invar_updateEmp h hmem rfl ?_ ?_
    · exact hpred.1.symm
    · exact archInv_of_eq (h.1 ex hmem) rfl rfl rfl rfl
  · rename_i hf ho hdup
    refine invar_append h rfl ?_ ?_
    · unfold ArchInv
      exact ⟨fun hc => absurd hc (by simp [newEmployee]), fun _ => ⟨rfl, rfl, rfl⟩⟩
    · intro x hx hxe
      exact hdup (List.any_eq_true.mpr ⟨x, hx, by simp [newEmployee, hxe]⟩)

theorem invar_applyOp (orgs : List Nat) (db : List Employee) (op : LifeOp)
    (h : Invar db) : Invar (applyOp orgs db op) := by
  cases op with
  | invite a o inp tk now => exact invar_invite orgs db a o inp tk now h
  | register a o inp today => exact invar_register orgs db a o inp today h
  | completeReg tok p ad g dob now => exact invar_completeReg db tok p ad g dob now h
  | updateStatus id o a st r n now => exact invar_updateStatus db id o a st r n now h
  | archive id o a r n now => exact invar_archive db id o a r n now h
  | unarchive id o a n now => exact invar_unarchive db id o a n now h
  | softDelete id o now => exact invar_softDelete db id o now h
  | restore id o => exact invar_restore db id o h

theorem invar_reachable {orgs : List Nat} {db : List Employee}
    (h : Reachable orgs db) : Invar db := by
  induction h with
  | init => exact ⟨by simp, by simp, by simp, by simp⟩
  | step db op hr ih => exact invar_applyOp orgs db op ih

/-! ### C1: the archival-fields invariant over reachable states -/

/-- C1 (counterexample): the claimed invariant is false as stated.  The
store reached by Invite, Archive, SoftDelete, Restore contains an employee
with employmentStatus archived and all three archive fields set whose
status is pending, not terminated: `restoreEmployeeByAdmin` resets status
to pending without checking the archival sub-state, breaking the claimed
`archived -> status = terminated` coupling. -/
theorem C1_counterexample :
    Reachable [1] c1db ∧ ∃ e ∈ c1db,
      e.employmentStatus = EmploymentStatus.archived ∧
      e.archivedAt ≠ none ∧ e.archivedBy ≠ none ∧ e.archiveReason ≠ none ∧
      e.status ≠ EmpStatus.terminated := by
  constructor
  · exact Reachable.step _ c1op4 (Reachable.step _ c1op3
      (Reachable.step _ c1op2 (Reachable.step _ c1op1 Reachable.init)))
  · decide

/-- C1 (amended): for every employee reachable by any sequence of the
lifecycle operations, employmentStatus = "archived" holds iff archivedAt,
archivedBy and archiveReason are all non-null, and employmentStatus =
"employed" implies all three are null.  The original claim's extra
conjunct `status = "terminated"` does not hold: UpdateStatus and Restore
can change status on an archived record (see the counterexample). -/
theorem C1_archived_iff_fields (orgs : List Nat) (db : List Employee)
    (h : Reachable orgs db) :
    ∀ e ∈ db,
      (e.employmentStatus = EmploymentStatus.archived ↔
        (e.archivedAt ≠ none ∧ e.archivedBy ≠ none ∧ e.archiveReason ≠ none)) ∧
      (e.employmentStatus = EmploymentStatus.employed →
        e.archivedAt = none ∧ e.archivedBy = none ∧ e.archiveReason = none) := by
  intro e he
  obtain ⟨h1, h2⟩ := (invar_reachable h).1 e he
  refine ⟨⟨fun harch => ?_, fun hfields => ?_⟩, h2⟩
  · obtain ⟨a1, a2, a3⟩ := h1 harch
    exact ⟨Option.ne_none_iff_isSome.mpr a1, Option.ne_none_iff_isSome.mpr a2,
      Option.ne_none_iff_isSome.mpr a3⟩
  · cases hstat : e.employmentStatus with
    | archived => rfl
    | employed => exact absurd (h2 hstat).1 hfields.1

/-- C1 witness: the amended invariant evaluated on the one employee of a
concrete reachable store (a single freshly invited employee). -/
theorem C1_archived_iff_fields_witness :
    (c1wemp.employmentStatus = EmploymentStatus.archived ↔
      (c1wemp.archivedAt ≠ none ∧ c1wemp.archivedBy ≠ none ∧
        c1wemp.archiveReason ≠ none)) ∧
    (c1wemp.employmentStatus = EmploymentStatus.employed →
      c1wemp.archivedAt = none ∧ c1wemp.archivedBy = none ∧
        c1wemp.archiveReason = none) :=
  C1_archived_iff_fields [1] (applyOp [1] [] c1op1)
    (Reachable.step [] c1op1 Reachable.init) c1wemp (by decide)

/-! ### C3: cross-tenant lookups fail as NotFound -/

/-- C3: for an admin whose organization differs from the target record's
organization, every admin-facing lookup-by-id operation (get single,
update, update status, archive, unarchive, soft-delete, restore) fails
with a 404 NotFound (never a 403 Forbidden) and leaves the store
unchanged: each `findOne` filters by `organization = caller.organizationId`. -/
theorem C3_cross_tenant_not_found (db : List Employee) (id orgId : Nat)
    (hcross : ∀ e ∈ db, e.id = id → e.organization ≠ orgId)
    (adminId : Nat) (ud : UpdateData) (st : EmpStatus)
    (reason notes : Option String) (now : Nat) :
    getEmployee db id orgId = .error ⟨"Employee not found", 404⟩ ∧
    updateEmployeeByAdmin db id orgId ud = (db, .error ⟨"Employee not found", 404⟩) ∧
    updateEmployeeStatus db id orgId adminId (some st) reason notes now =
      (db, .error ⟨"Employee not found", 404⟩) ∧
    archiveEmployeeByAdmin db id orgId adminId reason notes now =
      (db, .error ⟨"Employee not found", 404⟩) ∧
    unarchiveEmployeeByAdmin db id orgId adminId notes now =
      (db, .error ⟨"Archived employee not found", 404⟩) ∧
    softDeleteEmployeeByAdmin db id orgId now =
      (db, .error ⟨"Employee not found", 404⟩) ∧
    restoreEmployeeByAdmin db id orgId =
      (db, .error ⟨"Deleted employee not found", 404⟩) := by
  refine ⟨?_, ?_, ?_, ?_, ?_, ?_, ?_⟩ <;>
    simp [getEmployee, updateEmployeeByAdmin, updateEmployeeStatus,
      archiveEmployeeByAdmin, unarchiveEmployeeByAdmin,
      softDeleteEmployeeByAdmin, restoreEmployeeByAdmin,
      findByIdOrg_none hcross]

/-- C3 witness: a store holding one employee of organization 2; an admin
of organization 1 looking it up by its id gets 404. -/
theorem C3_cross_tenant_not_found_witness :
    getEmployee [c3emp] 0 1 = .error ⟨"Employee not found", 404⟩ :=
  (C3_cross_tenant_not_found [c3emp] 0 1 (by decide) 1 c3ud EmpStatus.pending
    none none 0).1

/-! ### C4: password-confirmation mismatch rejects without mutation -/

/-- C4: a registration-completion request whose password and
confirmPassword differ (all required fields present and salary valid, so
the earlier checks pass) fails with the 400 validation error and returns
the store untouched: the check precedes every write, so the invited
record still has its pending invitation and stored secret.  The
password/confirmPassword inputs exist only on the `registerEmployee`
handler; the token-based `completeEmployeeRegistration` takes no password. -/
theorem C4_password_mismatch_unchanged (orgs : List Nat) (db : List Employee)
    (a o : Nat) (inp : RegInput) (today : SimpleDate)
    (hmiss : missingFields inp = [])
    (hsal : salaryNeg inp.salary = false)
    (hpw : inp.password ≠ inp.confirmPassword) :
    registerEmployee orgs db a o inp today =
      (db, .error ⟨"Password and confirm password do not match", 400⟩) := by
  unfold registerEmployee registerValidate
  simp [hmiss, hsal, hpw]

/-- C4 witness: concrete mismatched password/confirmPassword request on an
empty store. -/
theorem C4_password_mismatch_unchanged_witness :
    registerEmployee [1] [] 1 1 c4inp ⟨2026, 9, 11⟩ =
      ([], .error ⟨"Password and confirm password do not match", 400⟩) :=
  C4_password_mismatch_unchanged [1] [] 1 1 c4inp ⟨2026, 9, 11⟩
    (by decide) (by decide) (by decide)

/-! ### C5: Archive then Unarchive round-trip -/

/-- C5: for a non-deleted, non-archived employee in any of the four
statuses, Archive immediately followed by Unarchive succeeds and yields
employmentStatus = "employed" and status = "pending" (never the
pre-archive status), with archivedAt, archivedBy and archiveReason cleared
to null. -/
theorem C5_archive_unarchive_roundtrip (db : List Employee)
    (id orgId a1 a2 t1 t2 : Nat) (reason notes notes2 : Option String)
    (e : Employee)
    (hf : findByIdOrg db id orgId (fun x => !x.isDeleted) = some e)
    (hno : e.employmentStatus ≠ EmploymentStatus.archived) :
    ∃ x1 x2,
      (archiveEmployeeByAdmin db id orgId a1 reason notes t1).2 = .ok x1 ∧
      (unarchiveEmployeeByAdmin (archiveEmployeeByAdmin db id orgId a1 reason notes t1).1
        id orgId a2 notes2 t2).2 = .ok x2 ∧
      x2.employmentStatus = EmploymentStatus.employed ∧
      x2.status = EmpStatus.pending ∧
      x2.archivedAt = none ∧ x2.archivedBy = none ∧ x2.archiveReason = none ∧
      x2.id = e.id := by
  obtain ⟨hid, horg, hdel⟩ := findByIdOrg_spec hf
  have hmem : e ∈ db := findByIdOrg_mem hf
  have h1 : ∃ x1, archiveEmployeeByAdmin db id orgId a1 reason notes t1 =
      (updateEmp db x1, .ok x1) ∧ x1.id = e.id ∧ x1.organization = e.organization ∧
      x1.isDeleted = e.isDeleted ∧
      x1.employmentStatus = EmploymentStatus.archived := by
    unfold archiveEmployeeByAdmin
    rw [hf]
    simp only [if_neg hno]
    exact ⟨_, rfl, rfl, rfl, rfl, rfl⟩
  obtain ⟨x1, hx1, hx1id, hx1org, hx1del, hx1arch⟩ := h1
  have hdel2 : e.isDeleted = false := by simpa using hdel
  have hp : (fun x => x.id == id && (x.organization == orgId &&
      (decide (x.employmentStatus = EmploymentStatus.archived) && !x.isDeleted))) x1 = true := by
    simp [hx1id, hid, hx1org, horg, hx1arch, hx1del, hdel2]
  have hfind2 : findByIdOrg (updateEmp db x1) id orgId
      (fun x => decide (x.employmentStatus = EmploymentStatus.archived) && !x.isDeleted) =
        some x1 := by
    unfold findByIdOrg
    refine find_updateEmp hp ?_ ⟨e, hmem, by rw [hx1id]⟩
    intro x hx
    simp only [Bool.and_eq_true, beq_iff_eq] at hx
    rw [hx.1, hx1id, hid]
  rw [hx1]
  refine ⟨x1, ?_⟩
  unfold unarchiveEmployeeByAdmin
  rw [hfind2]
  exact ⟨_, rfl, rfl, rfl, rfl, rfl, rfl, rfl, hx1id⟩

/-- C5 witness: archiving then unarchiving a concrete freshly invited
employee yields employed/pending with cleared archive fields. -/
theorem C5_archive_unarchive_roundtrip_witness :
    ∃ x1 x2,
      (archiveEmployeeByAdmin [c5emp] 0 1 1 none none 5).2 = .ok x1 ∧
      (unarchiveEmployeeByAdmin (archiveEmployeeByAdmin [c5emp] 0 1 1 none none 5).1
        0 1 1 none 6).2 = .ok x2 ∧
      x2.employmentStatus = EmploymentStatus.employed ∧
      x2.status = EmpStatus.pending ∧
      x2.archivedAt = none ∧ x2.archivedBy = none ∧ x2.archiveReason = none ∧
      x2.id = c5emp.id :=
  C5_archive_unarchive_roundtrip [c5emp] 0 1 1 1 5 6 none none none c5emp
    (by decide) (by decide)

/-! ### C10: SoftDelete and Restore are silent status changes -/

/-- C10: SoftDelete sets isDeleted/deletedAt and forces status to
terminated, Restore clears them and resets status to pending, and neither
appends a statusHistory entry nor changes any other field; by contrast
UpdateStatus appends exactly one audit entry for its change. -/
theorem C10_soft_delete_restore_frame
    (db : List Employee) (id orgId now : Nat) (e : Employee)
    (hdel : findByIdOrg db id orgId (fun x => !x.isDeleted) = some e)
    (db2 : List Employee) (id2 orgId2 : Nat) (e2 : Employee)
    (hres : findByIdOrg db2 id2 orgId2 (fun x => x.isDeleted) = some e2)
    (db3 : List Employee) (id3 orgId3 a3 t3 : Nat) (st : EmpStatus)
    (r3 n3 : Option String) (e3 : Employee)
    (hupd : findByIdOrg db3 id3 orgId3 (fun _ => true) = some e3) :
    (∃ d, softDeleteEmployeeByAdmin db id orgId now = (updateEmp db d, .ok d) ∧
      d.isDeleted = true ∧ d.deletedAt = some now ∧ d.status = EmpStatus.terminated ∧
      d.statusHistory = e.statusHistory ∧
      d.id = e.id ∧ d.adminId = e.adminId ∧ d.firstName = e.firstName ∧
      d.lastName = e.lastName ∧ d.email = e.email ∧ d.phone = e.phone ∧
      d.address = e.address ∧ d.gender = e.gender ∧ d.dateOfBirth = e.dateOfBirth ∧
      d.age = e.age ∧ d.aadharCardNumber = e.aadharCardNumber ∧
      d.employeeType = e.employeeType ∧
      d.advocateLicenseNumber = e.advocateLicenseNumber ∧
      d.internYear = e.internYear ∧ d.salary = e.salary ∧
      d.department = e.department ∧ d.position = e.position ∧
      d.startDate = e.startDate ∧
      d.emergencyContactName = e.emergencyContactName ∧
      d.emergencyContactPhone = e.emergencyContactPhone ∧
      d.emergencyContactRelation = e.emergencyContactRelation ∧
      d.password = e.password ∧ d.organization = e.organization ∧
      d.invitationStatus = e.invitationStatus ∧
      d.invitationToken = e.invitationToken ∧
      d.invitationExpires = e.invitationExpires ∧
      d.employmentStatus = e.employmentStatus ∧
      d.archivedAt = e.archivedAt ∧ d.archivedBy = e.archivedBy ∧
      d.archiveReason = e.archiveReason) ∧
    (∃ r, restoreEmployeeByAdmin db2 id2 orgId2 = (updateEmp db2 r, .ok r) ∧
      r.isDeleted = false ∧ r.deletedAt = none ∧ r.status = EmpStatus.pending ∧
      r.statusHistory = e2.statusHistory ∧
      r.id = e2.id ∧ r.adminId = e2.adminId ∧ r.firstName = e2.firstName ∧
      r.lastName = e2.lastName ∧ r.email = e2.email ∧ r.phone = e2.phone ∧
      r.address = e2.address ∧ r.gender = e2.gender ∧ r.dateOfBirth = e2.dateOfBirth ∧
      r.age = e2.age ∧ r.aadharCardNumber = e2.aadharCardNumber ∧
      r.employeeType = e2.employeeType ∧
      r.advocateLicenseNumber = e2.advocateLicenseNumber ∧
      r.internYear = e2.internYear ∧ r.salary = e2.salary ∧
      r.department = e2.department ∧ r.position = e2.position ∧
      r.startDate = e2.startDate ∧
      r.emergencyContactName = e2.emergencyContactName ∧
      r.emergencyContactPhone = e2.emergencyContactPhone ∧
      r.emergencyContactRelation = e2.emergencyContactRelation ∧
      r.password = e2.password ∧ r.organization = e2.organization ∧
      r.invitationStatus = e2.invitationStatus ∧
      r.invitationToken = e2.invitationToken ∧
      r.invitationExpires = e2.invitationExpires ∧
      r.employmentStatus = e2.employmentStatus ∧
      r.archivedAt = e2.archivedAt ∧ r.archivedBy = e2.archivedBy ∧
      r.archiveReason = e2.archiveReason) ∧
    (∃ u, (updateEmployeeStatus db3 id3 orgId3 a3 (some st) r3 n3 t3).2 = .ok u ∧
      u.statusHistory = e3.statusHistory ++
        [{ fromStatus := e3.status, toStatus := st, changedBy := a3,
           changedAt := t3, reason := r3, notes := n3 }]) := by
  refine ⟨?_, ?_, ?_⟩
  · unfold softDeleteEmployeeByAdmin
    rw [hdel]
    exact ⟨_, rfl, rfl, rfl, rfl, rfl, rfl, rfl, rfl, rfl, rfl, rfl, rfl, rfl,
      rfl, rfl, rfl, rfl, rfl, rfl, rfl, rfl, rfl, rfl, rfl, rfl, rfl, rfl,
      rfl, rfl, rfl, rfl, rfl, rfl, rfl, rfl⟩
  · unfold restoreEmployeeByAdmin
    rw [hres]
    exact ⟨_, rfl, rfl, rfl, rfl, rfl, rfl, rfl, rfl, rfl, rfl, rfl, rfl, rfl,
      rfl, rfl, rfl, rfl, rfl, rfl, rfl, rfl, rfl, rfl, rfl, rfl, rfl, rfl,
      rfl, rfl, rfl, rfl, rfl, rfl, rfl, rfl⟩
  · unfold updateEmployeeStatus
    rw [hupd]
    exact ⟨_, rfl, rfl⟩

/-- C10 witness: the soft-delete half evaluated on a concrete store (and
the restore/update halves discharged on a matching deleted record). -/
theorem C10_soft_delete_restore_frame_witness :
    ∃ r, restoreEmployeeByAdmin [c10del] 0 1 = (updateEmp [c10del] r, .ok r) ∧
      r.isDeleted = false ∧ r.deletedAt = none ∧ r.status = EmpStatus.pending ∧
      r.statusHistory = c10del.statusHistory ∧
      r.id = c10del.id ∧ r.adminId = c10del.adminId ∧ r.firstName = c10del.firstName ∧
      r.lastName = c10del.lastName ∧ r.email = c10del.email ∧ r.phone = c10del.phone ∧
      r.address = c10del.address ∧ r.gender = c10del.gender ∧
      r.dateOfBirth = c10del.dateOfBirth ∧
      r.age = c10del.age ∧ r.aadharCardNumber = c10del.aadharCardNumber ∧
      r.employeeType = c10del.employeeType ∧
      r.advocateLicenseNumber = c10del.advocateLicenseNumber ∧
      r.internYear = c10del.internYear ∧ r.salary = c10del.salary ∧
      r.department = c10del.department ∧ r.position = c10del.position ∧
      r.startDate = c10del.startDate ∧
      r.emergencyContactName = c10del.emergencyContactName ∧
      r.emergencyContactPhone = c10del.emergencyContactPhone ∧
      r.emergencyContactRelation = c10del.emergencyContactRelation ∧
      r.password = c10del.password ∧ r.organization = c10del.organization ∧
      r.invitationStatus = c10del.invitationStatus ∧
      r.invitationToken = c10del.invitationToken ∧
      r.invitationExpires = c10del.invitationExpires ∧
      r.employmentStatus = c10del.employmentStatus ∧
      r.archivedAt = c10del.archivedAt ∧ r.archivedBy = c10del.archivedBy ∧
      r.archiveReason = c10del.archiveReason :=
  (C10_soft_delete_restore_frame [c5emp] 0 1 9 c5emp (by decide)
    [c10del] 0 1 c10del (by decide)
    [c5emp] 0 1 1 9 EmpStatus.active none none c5emp (by decide)).2.1

/-! ### C6: re-invite of an expired invitation -/

/-- C6: inviting an email whose existing record has invitationStatus
"expired" succeeds as a re-invite: invitationStatus is reset to "pending",
the freshly generated secret (distinct from the stored one, which the
random generator guarantees) is stored, and the expiry is reset to
now + 7 days. -/
theorem C6_reinvite_expired (orgs : List Nat) (db : List Employee)
    (a o : Nat) (inp : InviteInput) (tk : String) (now : Nat)
    (em fn ln : String) (ex : Employee)
    (hem : inp.email = some em) (hfn : inp.firstName = some fn)
    (hln : inp.lastName = some ln)
    (hsal : salaryNeg inp.salary = false)
    (hf : db.find? (fun e => e.email == lowerStr em && e.organization == o) = some ex)
    (hexp : ex.invitationStatus = InvStatus.expired)
    (horg : orgs.contains o = true)
    (hfresh : some tk ≠ ex.invitationToken) :
    ∃ e2, sendEmployeeInvitation orgs db a o inp tk now = (updateEmp db e2, .ok e2) ∧
      e2.invitationStatus = InvStatus.pending ∧
      e2.invitationToken = some tk ∧
      e2.invitationToken ≠ ex.invitationToken ∧
      e2.invitationExpires = some (now + sevenDays) ∧
      e2.id = ex.id := by
  unfold sendEmployeeInvitation
  rw [hem, hfn, hln]
  simp only [hsal, Bool.false_eq_true, if_false, hf, hexp, horg]
  exact ⟨_, rfl, rfl, rfl, hfresh, rfl, rfl⟩

/-- C6 witness: re-inviting a concrete expired record issues the new
secret and expiry. -/
theorem C6_reinvite_expired_witness :
    ∃ e2, sendEmployeeInvitation [1] [c6emp] 1 1
        ⟨some "Jane", some "Doe", some "jane@x.co", none⟩ "newtok" 9 =
        (updateEmp [c6emp] e2, .ok e2) ∧
      e2.invitationStatus = InvStatus.pending ∧
      e2.invitationToken = some "newtok" ∧
      e2.invitationToken ≠ c6emp.invitationToken ∧
      e2.invitationExpires = some (9 + sevenDays) ∧
      e2.id = c6emp.id :=
  C6_reinvite_expired [1] [c6emp] 1 1
    ⟨some "Jane", some "Doe", some "jane@x.co", none⟩ "newtok" 9
    "jane@x.co" "Jane" "Doe" c6emp rfl rfl rfl (by decide) (by decide)
    (by decide) (by decide) (by decide)

/-! ### C7: the aadhar-collision recovery is shadowed -/

/-- C7 (code bug): a duplicate-key error on the national-id
(`aadharCardNumber`) index reaching the invite catch handler is answered
by the generic 400 data-conflict response from the
`error.message.includes(aadharCardNumber)` guard, because an E11000
message always names the violated index; the clear-the-field-and-retry
recovery branch below that guard (source lines 123-153) is unreachable,
so the collision is surfaced to the caller, contradicting the claim (and
the recovery code's own intent). -/
theorem C7_aadhar_conflict_surfaced (db : List Employee) (a o : Nat)
    (fn ln em : String) (sal : Option Int) (tk : String) (now : Nat) :
    handleInviteError db a o fn ln em sal tk now aadharDupErr =
      (db, .error ⟨"There seems to be a data conflict. Please contact support or try with a different email address.", 400⟩) := rfl

/-! ### C2: invitation secrets versus session tokens -/

/-- C2 (counterexample): the claim that a valid session token presented to
the invitation lookup never resolves to an employee is false: the JWT
fallback of `getEmployeeByToken` decodes the session token and finds the
pending-invitation employee whose id is in the payload. -/
theorem C2_counterexample :
    (getEmployeeByToken [c2emp] (TokenStr.jwtStr 7 "employee") 1).2 = .ok c2emp := by
  decide

/-- C2 (amended): the invitation lookup succeeds only when its input
equals a stored invitation secret of a pending invitation OR (the
source's JWT fallback) is a validly signed session token whose payload id
names a pending-invitation employee; and an invitation secret presented
where a session token is expected always fails 401 Unauthenticated in
`protect` (jwt.verify rejects it). -/
theorem C2_lookup_characterization (db : List Employee) (tok : TokenStr)
    (now : Nat) (res : List Employee) (e : Employee) (users : List User)
    (s : String)
    (hok : getEmployeeByToken db tok now = (res, .ok e)) :
    ((∃ sec, tok = TokenStr.secretStr sec ∧ e.invitationToken = some sec ∧
        e.invitationStatus = InvStatus.pending) ∨
      (∃ jid role, tok = TokenStr.jwtStr jid role ∧ e.id = jid ∧
        e.invitationStatus = InvStatus.pending)) ∧
    protect users db (some (TokenStr.secretStr s)) =
      .error ⟨"Not authorized to access this route", 401⟩ := by
  refine ⟨?_, rfl⟩
  unfold getEmployeeByToken at hok
  cases tok with
  | badStr s2 => simp at hok
  | secretStr sec =>
    cases hfind : db.find? (fun x => x.invitationToken == some sec &&
        decide (x.invitationStatus = InvStatus.pending)) with
    | none => simp [hfind] at hok
    | some x =>
      have hpred := List.find?_some hfind
      simp only [Bool.and_eq_true, beq_iff_eq, decide_eq_true_eq] at hpred
      left
      cases hexp : x.invitationExpires with
      | none =>
        simp [hfind, hexp] at hok
        exact ⟨sec, rfl, hok.2 ▸ hpred.1, hok.2 ▸ hpred.2⟩
      | some exp =>
        by_cases hlt : exp < now
        · simp [hfind, hexp, hlt] at hok
        · simp [hfind, hexp, hlt] at hok
          exact ⟨sec, rfl, hok.2 ▸ hpred.1, hok.2 ▸ hpred.2⟩
  | jwtStr jid role =>
    cases hfind : db.find? (fun x => x.id == jid &&
        decide (x.invitationStatus = InvStatus.pending)) with
    | none => simp [hfind] at hok
    | some x =>
      have hpred := List.find?_some hfind
      simp only [Bool.and_eq_true, beq_iff_eq, decide_eq_true_eq] at hpred
      right
      cases hexp : x.invitationExpires with
      | none =>
        simp [hfind, hexp] at hok
        exact ⟨jid, role, rfl, hok.2 ▸ hpred.1, hok.2 ▸ hpred.2⟩
      | some exp =>
        by_cases hlt : exp < now
        · simp [hfind, hexp, hlt] at hok
        · simp [hfind, hexp, hlt] at hok
          exact ⟨jid, role, rfl, hok.2 ▸ hpred.1, hok.2 ▸ hpred.2⟩

/-- C2 witness: the characterization applied to a concrete successful
secret lookup, and the 401 on a secret sent to `protect`. -/
theorem C2_lookup_characterization_witness :
    ((∃ sec, TokenStr.secretStr "secret1" = TokenStr.secretStr sec ∧
        c2emp.invitationToken = some sec ∧
        c2emp.invitationStatus = InvStatus.pending) ∨
      (∃ jid role, TokenStr.secretStr "secret1" = TokenStr.jwtStr jid role ∧
        c2emp.id = jid ∧ c2emp.invitationStatus = InvStatus.pending)) ∧
    protect [] [c2emp] (some (TokenStr.secretStr "zzz")) =
      .error ⟨"Not authorized to access this route", 401⟩ :=
  C2_lookup_characterization [c2emp] (TokenStr.secretStr "secret1") 1
    [c2emp] c2emp [] "zzz" (by decide)

/-! ### C8: the admin listing's visibility rules -/

/-- C8: with default flags the listing never returns a soft-deleted or
archived record; with includeDeleted and includeArchived both true (and
no status/search filter) every record of the organization — soft-deleted
and archived ones included — matches the query, is counted in totalCount,
and is drawn from the filtered collection the pages paginate. -/
theorem C8_listing_visibility (db : List Employee) (orgId : Nat)
    (page limit : Int) (sortBy sortOrder : String)
    (sortFn : List Employee → List Employee)
    (hperm : ∀ l, (sortFn l).Perm l)
    (status : Option EmpStatus) (search : Option String)
    (items : List Employee) (total : Nat)
    (items2 : List Employee) (total2 : Nat)
    (hdef : getEmployeesForAdmin db orgId ⟨false, false, status, search⟩
      page limit sortBy sortOrder sortFn = .ok (items, total))
    (hall : getEmployeesForAdmin db orgId ⟨true, true, none, none⟩
      page limit sortBy sortOrder sortFn = .ok (items2, total2)) :
    (∀ x ∈ items, x.isDeleted = false ∧
      x.employmentStatus ≠ EmploymentStatus.archived) ∧
    total2 = (db.filter (listMatches orgId ⟨true, true, none, none⟩)).length ∧
    (∀ x ∈ db, x.organization = orgId →
      x ∈ db.filter (listMatches orgId ⟨true, true, none, none⟩)) ∧
    (page = 1 → total2 ≤ limit.toNat →
      ∀ x ∈ db, x.organization = orgId → x ∈ items2) := by
  unfold getEmployeesForAdmin at hdef hall
  repeat' split at hdef
  all_goals try cases hdef
  all_goals repeat' split at hall
  all_goals try cases hall
  have hmem2 : ∀ x ∈ db, x.organization = orgId →
      x ∈ db.filter (listMatches orgId ⟨true, true, none, none⟩) := by
    intro x hx horgx
    exact List.mem_filter.mpr ⟨hx, by simp [listMatches, horgx]⟩
  refine ⟨?_, rfl, hmem2, ?_⟩
  · intro x hx
    have hx2 := (hperm _).mem_iff.mp (List.mem_of_mem_drop (List.mem_of_mem_take hx))
    have hx4 := (List.mem_filter.mp hx2).2
    simp only [listMatches, Bool.and_eq_true, Bool.or_eq_true, decide_eq_true_eq,
      Bool.false_eq_true, false_or, Bool.not_eq_true'] at hx4
    refine ⟨hx4.1.1.1.2, ?_⟩
    rw [hx4.1.1.2]
    simp
  · intro hpage htotal x hx horgx
    subst hpage
    have hlen : (sortFn (db.filter (listMatches orgId ⟨true, true, none, none⟩))).length ≤
        limit.toNat := by
      rw [(hperm _).length_eq]
      exact htotal
    simp only [show ((1 : Int) - 1) * limit = 0 by ring, Int.toNat_zero, List.drop_zero,
      List.take_of_length_le hlen]
    exact (hperm _).mem_iff.mpr (hmem2 x hx horgx)

/-- C8 witness: on a concrete store with one active, one soft-deleted and
one archived employee, the default listing hides both and the opt-in
listing counts all three. -/
theorem C8_listing_visibility_witness :
    (∀ x ∈ [c8active], x.isDeleted = false ∧
      x.employmentStatus ≠ EmploymentStatus.archived) ∧
    (3 : Nat) = ([c8deleted, c8archived, c8active].filter
      (listMatches 1 ⟨true, true, none, none⟩)).length ∧
    (∀ x ∈ [c8deleted, c8archived, c8active], x.organization = 1 →
      x ∈ [c8deleted, c8archived, c8active].filter
        (listMatches 1 ⟨true, true, none, none⟩)) ∧
    ((1 : Int) = 1 → (3 : Nat) ≤ (10 : Int).toNat →
      ∀ x ∈ [c8deleted, c8archived, c8active], x.organization = 1 →
        x ∈ [c8deleted, c8archived, c8active]) :=
  C8_listing_visibility [c8deleted, c8archived, c8active] 1 1 10
    "createdAt" "desc" id (fun l => List.Perm.refl l) none none
    [c8active] 1 [c8deleted, c8archived, c8active] 3
    (by decide) (by decide)

/-! ### C9: global email uniqueness and cross-tenant invites -/

/-- C9: employee emails are globally unique across organizations (the
schema-level unique index, maintained by every lifecycle operation), and
an Invite in organization B of an email already held by an employee of a
different organization A finds no existing record in the per-organization
lookup, so `Employee.create` trips the global unique email index and the
operation fails with the duplicate-email conflict instead of creating a
second employee — the store is unchanged. -/
theorem C9_email_globally_unique (orgs : List Nat) (db : List Employee)
    (h : Reachable orgs db) (adminB orgB : Nat) (inp : InviteInput)
    (em fn ln : String) (tk : String) (now : Nat) (ea : Employee)
    (hem : inp.email = some em) (hfn : inp.firstName = some fn)
    (hln : inp.lastName = some ln)
    (hsal : salaryNeg inp.salary = false)
    (hea : ea ∈ db) (heaEmail : ea.email = lowerStr em)
    (heaOrg : ea.organization ≠ orgB)
    (hnoB : ∀ e ∈ db, e.email = lowerStr em → e.organization ≠ orgB)
    (horg : orgs.contains orgB = true) :
    List.Pairwise (fun a b => a.email ≠ b.email) db ∧
    sendEmployeeInvitation orgs db adminB orgB inp tk now =
      (db, .error ⟨"An employee with this email already exists. Please use a different email.", 400⟩) := by
  constructor
  · exact List.pairwise_map.mp ((invar_reachable h).2.2.2)
  · have hfind : db.find? (fun e => e.email == lowerStr em && e.organization == orgB) = none := by
      apply List.find?_eq_none.mpr
      intro x hx hcontra
      simp only [Bool.and_eq_true, beq_iff_eq] at hcontra
      exact hnoB x hx hcontra.1 hcontra.2
    have hany : db.any (fun e => e.email == lowerStr em) = true :=
      List.any_eq_true.mpr ⟨ea, hea, by simp [heaEmail]⟩
    unfold sendEmployeeInvitation
    rw [hem, hfn, hln]
    simp only [hsal, Bool.false_eq_true, if_false, hfind, horg, hany, if_true]
    rfl

/-- C9 witness: after inviting ann@a.co in organization 1, an invite of
the same email in organization 2 fails with the duplicate-email conflict
and changes nothing. -/
theorem C9_email_globally_unique_witness :
    sendEmployeeInvitation [1, 2] c9db 5 2
        ⟨some "Ann", some "Bee", some "ann@a.co", none⟩ "t9b" 3 =
      (c9db, .error ⟨"An employee with this email already exists. Please use a different email.", 400⟩) :=
  (C9_email_globally_unique [1, 2] c9db (Reachable.step [] c9op Reachable.init)
    5 2 ⟨some "Ann", some "Bee", some "ann@a.co", none⟩ "ann@a.co" "Ann" "Bee"
    "t9b" 3 c9ea rfl rfl rfl (by decide) (by decide) (by decide) (by decide)
    (by decide) (by decide)).2

end CaseSnap
